import Mathlib

/-!
Verification development for the Discord-Shiller repository.

The definitions below are a shallow embedding of the message scheduling and
delivery core of the repository:

* `src/src/framework/message/voice_based.py` — `VoiceMESSAGE` (constructor,
  `get_data`, `send_channel`, `send`, `generate_log_context`);
* `src/src/framework/guild.py` — `GUILD.advertise` and `USER.advertise`;
* `src/src/daf/message/voice_based.py` — `VoiceMESSAGE.__init__` (volume
  clamp) and `VoiceMESSAGE._handle_error`;
* `src/src/daf/misc.py` — `_update`.

Python objects are translated to Lean structures, mutation to explicit state
passing, exceptions to result values, and the behaviour of the external
Discord API (permissions, connection failures, playback errors) to explicit
environment parameters.  Coroutine suspension points play no role in the
claims below, so `async` methods are translated to ordinary functions.
-/

/-! ### Discord API model

`discord.HTTPException` and its subclasses `discord.Forbidden` (HTTP 403) and
`discord.NotFound` (HTTP 404) carry an HTTP status and a Discord error code.
`FileExistsError` is a non-HTTP Python exception that can escape the audio
playback call.  These are the exception classes distinguished by
`VoiceMESSAGE.send_channel` / `VoiceMESSAGE.send`. -/

inductive SendError where
  | forbidden (status code : Int)
  | notFound (status code : Int)
  | httpException (status code : Int)
  | fileExists
deriving DecidableEq, Repr

/-- `isinstance(reason, discord.HTTPException)`: `Forbidden` and `NotFound`
are subclasses of `HTTPException`; `FileExistsError` is not. -/
def SendError.isHTTP : SendError → Bool
  | .fileExists => false
  | _ => true

def SendError.status : SendError → Int
  | .forbidden s _ => s
  | .notFound s _ => s
  | .httpException s _ => s
  | .fileExists => 0

def SendError.code : SendError → Int
  | .forbidden _ c => c
  | .notFound _ c => c
  | .httpException _ c => c
  | .fileExists => 0

/-- A voice channel handle (`discord.VoiceChannel`): snowflake id and name. -/
structure FChannel where
  id : Nat
  name : String
deriving DecidableEq, Repr

/-- An `AUDIO` payload (`framework.dtypes.AUDIO`): carries a filename/url. -/
structure FAudio where
  filename : String
deriving DecidableEq, Repr

/-! ### Data provider (`VoiceMESSAGE.get_data`)

`self.data` is either a raw value or a `data_function` wrapper; `get_data`
first resolves it (`self.data.get_data() if isinstance(self.data,
FunctionBaseCLASS) else self.data`).  We embed the *resolved* value: `None`,
a single element, or a `list`/`tuple`/`set` of elements, where each element
either is an `AUDIO` object or has some other type. -/

inductive DataItem where
  | audio (a : FAudio)
  | other
deriving DecidableEq, Repr

inductive ResolvedData where
  | nothing
  | single (i : DataItem)
  | collection (l : List DataItem)
deriving DecidableEq, Repr

/-- The loop `for element in data: if isinstance(element, AUDIO):
_data_to_send["audio"] = element` — the last `AUDIO` element wins. -/
def pickAudio (l : List DataItem) : Option FAudio :=
  l.foldl (fun acc i => match i with | .audio a => Option.some a | .other => acc) Option.none

/-- `VoiceMESSAGE.get_data` (framework/message/voice_based.py:116-130).
The returned dictionary `_data_to_send` holds at most the key `"audio"`;
`send` then tests `any(_data_to_send.values())`, which is true exactly when
an `AUDIO` element was found (`AUDIO` objects are truthy). -/
def get_data (d : ResolvedData) : Option FAudio :=
  match d with
  | .nothing => Option.none
  | .single i => pickAudio [i]
  | .collection l => pickAudio l

/-! ### Timer

`BaseMESSAGE` (which owns the timer, `is_ready` and `reset_timer`) is not
part of the sources; its timer is modelled from the spec. -/

/-- Modelled from the spec: the per-message `Timer` of `BaseMESSAGE`
(`src/` lacks `framework/message/base.py`).  §4.1: `is_ready(now)` is true
iff `now >= next_fire_time`; `reset(now)` sets `next_fire_time = now +
period` where the period is `end_period` for a fixed timer and a freshly
sampled value in `[start_period, end_period]` for a randomized one.  The
random sample is supplied by the environment as a `Nat` seed. -/
structure Timer where
  start_period : Option Nat
  end_period : Nat
  next_fire_time : Nat
deriving DecidableEq, Repr

def Timer.period (t : Timer) (sample : Nat) : Nat :=
  match t.start_period with
  | Option.none => t.end_period
  | Option.some s => s + sample % (t.end_period - s + 1)

def Timer.is_ready (t : Timer) (now : Nat) : Bool := t.next_fire_time ≤ now

def Timer.reset (t : Timer) (now sample : Nat) : Timer :=
  { t with next_fire_time := now + t.period sample }

/-! ### `VoiceMESSAGE` state (framework/message/voice_based.py) -/

/-- The mutable state of a framework `VoiceMESSAGE` that the claims touch:
resolved payload source, clamped volume, live channel list, timer and the
`update_mutex` flag (`self.update_mutex.locked()`). -/
structure VoiceMESSAGE where
  data : ResolvedData
  volume : Int
  channels : List FChannel
  timer : Timer
  update_mutex_locked : Bool
deriving DecidableEq, Repr

/-- `VoiceMESSAGE.__init__` (framework/message/voice_based.py:73-83 and
daf/message/voice_based.py:123-142, identical for these fields):
`self.volume = max(0, min(100, volume))` and
`self.channels = list(set(channels))` (duplicate removal). -/
def VoiceMESSAGE.construct (data : ResolvedData) (channels : List FChannel)
    (volume : Int) (timer : Timer) : VoiceMESSAGE :=
  { data := data
    volume := max 0 (min 100 volume)
    channels := channels.dedup
    timer := timer
    update_mutex_locked := false }

/-! ### `VoiceMESSAGE.send_channel`

The behaviour of the Discord API for one delivery attempt is an environment
value: which exception (if any) the `try` body raises, and whether the
channel is still present in the client's cache when the `except` clause
classifies the error.  `discord.Forbidden` always has HTTP status 403
(raised by the permission pre-check with code 50013, or by the API). -/

inductive RawExc where
  | fileExistsError
  | forbiddenExc (code : Int)
  | otherExc
deriving DecidableEq, Repr

structure ChanEnv where
  raised : Option RawExc
  stillInCache : Bool
deriving DecidableEq, Repr

inductive SendResult where
  | success
  | failure (reason : SendError)
deriving DecidableEq, Repr

def SendResult.isSuccess : SendResult → Bool
  | .success => true
  | .failure _ => false

/-- `VoiceMESSAGE.send_channel` (framework/message/voice_based.py:162-210).
Every exception is caught; the `except` clause keeps `FileExistsError` and
`discord.Forbidden` unchanged, converts any other error into
`NotFound(404, 10003)` when the channel has disappeared from the cache and
into `HTTPException(500, 0)` ("Timeout error") otherwise.  The result is the
returned dictionary: `{"success": True}` or
`{"success": False, "reason": ex}`. -/
def send_channel (e : ChanEnv) : SendResult :=
  match e.raised with
  | Option.none => SendResult.success
  | Option.some RawExc.fileExistsError => SendResult.failure SendError.fileExists
  | Option.some (RawExc.forbiddenExc c) => SendResult.failure (SendError.forbidden 403 c)
  | Option.some RawExc.otherExc =>
      if e.stillInCache then SendResult.failure (SendError.httpException 500 0)
      else SendResult.failure (SendError.notFound 404 10003)

/-! ### `VoiceMESSAGE.send` -/

/-- One entry of the `failed` list of the log context. -/
structure ChannelLogEntry where
  name : String
  id : Nat
  reason : SendError
deriving DecidableEq, Repr

/-- `VoiceMESSAGE.generate_log_context` (framework/message/voice_based.py:85-114). -/
structure FLogContext where
  streamed_audio : String
  successful : List (String × Nat)
  failed : List ChannelLogEntry
  kind : String
deriving DecidableEq, Repr

def generate_log_context (audio : FAudio) (succeeded_ch : List FChannel)
    (failed_ch : List (FChannel × SendError)) : FLogContext :=
  { streamed_audio := audio.filename
    successful := succeeded_ch.map (fun c => (c.name, c.id))
    failed := failed_ch.map (fun p => ⟨p.1.name, p.1.id, p.2⟩)
    kind := "VoiceMESSAGE" }

/-- The `for channel in self.channels` loop of `send`
(framework/message/voice_based.py:234-239): every channel is attempted via
`send_channel`; successes and failures are accumulated in iteration order. -/
def sendLoop (env : FChannel → ChanEnv) :
    List FChannel → List FChannel × List (FChannel × SendError)
  | [] => ([], [])
  | ch :: rest =>
    match send_channel (env ch) with
    | .success => (ch :: (sendLoop env rest).1, (sendLoop env rest).2)
    | .failure r => ((sendLoop env rest).1, (ch, r) :: (sendLoop env rest).2)

/-- The channel removal condition of `send`
(framework/message/voice_based.py:241-250):
`isinstance(reason, discord.HTTPException) and (reason.status == 403 or
reason.code in {10003, 50013})`. -/
def removableReason (r : SendError) : Bool :=
  r.isHTTP && (r.status == 403 || r.code == 10003 || r.code == 50013)

/-- The cleanup loop `for data in errored_channels: ...
self.channels.remove(channel)` of `send`. -/
def removeErrored (errored : List (FChannel × SendError))
    (channels : List FChannel) : List FChannel :=
  errored.foldl (fun acc p => if removableReason p.2 then acc.erase p.1 else acc) channels

/-- `VoiceMESSAGE.send` (framework/message/voice_based.py:212-253).
Returns the value `send` returns (`None` or the log context), the new
message state, and — as instrumentation of the performed I/O — the list of
channels a delivery was attempted to. -/
def VoiceMESSAGE.send (m : VoiceMESSAGE) (env : FChannel → ChanEnv) :
    Option FLogContext × VoiceMESSAGE × List FChannel :=
  if m.update_mutex_locked then (Option.none, m, [])
  else
    match get_data m.data with
    | Option.none => (Option.none, m, [])
    | Option.some audio =>
      let se := sendLoop env m.channels
      let channels' := removeErrored se.2 m.channels
      (Option.some (generate_log_context audio se.1 se.2),
       { m with channels := channels' }, m.channels)

/-!  ## Claims C1 and C10 -/

/-- **C1.** For every Message whose update mutual-exclusion flag is currently
held, calling `send()` returns the "not sent" sentinel (`None`) immediately,
performs no channel delivery (attempt trace is empty), and leaves the
Message's state (channel list, timer, data) unchanged. -/
theorem claim1_send_locked_noop (m : VoiceMESSAGE) (env : FChannel → ChanEnv)
    (h : m.update_mutex_locked = true) :
    m.send env = (Option.none, m, []) := by
  unfold VoiceMESSAGE.send
  simp [h]

theorem claim1_send_locked_noop_witness :
    (VoiceMESSAGE.mk ResolvedData.nothing 50 [⟨1, "general"⟩]
        ⟨Option.none, 5, 0⟩ true).send (fun _ => ⟨Option.none, true⟩)
      = (Option.none,
         VoiceMESSAGE.mk ResolvedData.nothing 50 [⟨1, "general"⟩]
           ⟨Option.none, 5, 0⟩ true, []) :=
  claim1_send_locked_noop _ _ rfl

/-- **C10.** For every `VoiceMESSAGE` constructed with any integer volume
argument, the stored volume satisfies `0 ≤ volume ≤ 100`: values below 0
are clamped to 0 and values above 100 are clamped to 100, and in-range
values are stored unchanged rather than rejected
(`self.volume = max(0, min(100, volume))`, framework/message/voice_based.py:82
and daf/message/voice_based.py:141). -/
theorem claim10_volume_clamped (data : ResolvedData) (channels : List FChannel)
    (volume : Int) (timer : Timer) :
    0 ≤ (VoiceMESSAGE.construct data channels volume timer).volume ∧
    (VoiceMESSAGE.construct data channels volume timer).volume ≤ 100 ∧
    (volume < 0 → (VoiceMESSAGE.construct data channels volume timer).volume = 0) ∧
    (100 < volume → (VoiceMESSAGE.construct data channels volume timer).volume = 100) ∧
    (0 ≤ volume → volume ≤ 100 →
      (VoiceMESSAGE.construct data channels volume timer).volume = volume) := by
  unfold VoiceMESSAGE.construct
  dsimp only
  constructor
  · exact le_max_left 0 _
  refine ⟨?_, ?_, ?_, ?_⟩
  · rcases le_total volume 100 with h | h
    · simp [min_eq_right h]
      omega
    · simp [min_eq_left h]
  · intro h
    rw [min_eq_right (by omega), max_eq_left (by omega)]
  · intro h
    rw [min_eq_left (by omega)]
    omega
  · intro h1 h2
    rw [min_eq_right h2, max_eq_right h1]

theorem claim10_volume_clamped_witness :
    (VoiceMESSAGE.construct ResolvedData.nothing [] (-7) ⟨Option.none, 5, 0⟩).volume = 0 ∧
    (VoiceMESSAGE.construct ResolvedData.nothing [] 123 ⟨Option.none, 5, 0⟩).volume = 100 ∧
    (VoiceMESSAGE.construct ResolvedData.nothing [] 55 ⟨Option.none, 5, 0⟩).volume = 55 :=
  ⟨(claim10_volume_clamped ResolvedData.nothing [] (-7) ⟨Option.none, 5, 0⟩).2.2.1 (by decide),
   (claim10_volume_clamped ResolvedData.nothing [] 123 ⟨Option.none, 5, 0⟩).2.2.2.1 (by decide),
   (claim10_volume_clamped ResolvedData.nothing [] 55 ⟨Option.none, 5, 0⟩).2.2.2.2 (by decide) (by decide)⟩
/-! ### Lemmas about the channel loop and the cleanup loop -/

theorem sendLoop_cons_success (env : FChannel → ChanEnv) (a : FChannel)
    (rest : List FChannel) (h : send_channel (env a) = SendResult.success) :
    sendLoop env (a :: rest) = (a :: (sendLoop env rest).1, (sendLoop env rest).2) := by
  simp only [sendLoop, h]

theorem sendLoop_cons_failure (env : FChannel → ChanEnv) (a : FChannel)
    (rest : List FChannel) (r : SendError)
    (h : send_channel (env a) = SendResult.failure r) :
    sendLoop env (a :: rest) = ((sendLoop env rest).1, (a, r) :: (sendLoop env rest).2) := by
  simp only [sendLoop, h]

theorem sendLoop_length (env : FChannel → ChanEnv) :
    ∀ l : List FChannel,
      (sendLoop env l).1.length + (sendLoop env l).2.length = l.length := by
  intro l
  induction l with
  | nil => rfl
  | cons ch rest ih =>
    cases h : send_channel (env ch) with
    | success =>
      rw [sendLoop_cons_success env ch rest h]
      simp only [List.length_cons]
      omega
    | failure r =>
      rw [sendLoop_cons_failure env ch rest r h]
      simp only [List.length_cons]
      omega

theorem sendLoop_mem_errored (env : FChannel → ChanEnv) :
    ∀ (l : List FChannel) (ch : FChannel) (r : SendError), ch ∈ l →
      send_channel (env ch) = SendResult.failure r →
      (ch, r) ∈ (sendLoop env l).2 := by
  intro l
  induction l with
  | nil => intro ch r h; cases h
  | cons a rest ih =>
    intro ch r hch hr
    rcases List.mem_cons.mp hch with h | h
    · subst h
      rw [sendLoop_cons_failure env ch rest r hr]
      exact List.mem_cons_self _ _
    · cases ha : send_channel (env a) with
      | success =>
        rw [sendLoop_cons_success env a rest ha]
        exact ih ch r h hr
      | failure r0 =>
        rw [sendLoop_cons_failure env a rest r0 ha]
        exact List.mem_cons_of_mem _ (ih ch r h hr)

theorem sendLoop_errored_mem (env : FChannel → ChanEnv) :
    ∀ (l : List FChannel) (c : FChannel) (r : SendError),
      (c, r) ∈ (sendLoop env l).2 →
      c ∈ l ∧ send_channel (env c) = SendResult.failure r := by
  intro l
  induction l with
  | nil => intro c r h; cases h
  | cons a rest ih =>
    intro c r h
    cases ha : send_channel (env a) with
    | success =>
      rw [sendLoop_cons_success env a rest ha] at h
      have := ih c r h
      exact ⟨List.mem_cons_of_mem _ this.1, this.2⟩
    | failure r0 =>
      rw [sendLoop_cons_failure env a rest r0 ha] at h
      rcases List.mem_cons.mp h with h' | h'
      · simp only [Prod.mk.injEq] at h'
        rcases h' with ⟨h1, h2⟩
        subst h1; subst h2
        exact ⟨List.mem_cons_self _ _, ha⟩
      · have := ih c r h'
        exact ⟨List.mem_cons_of_mem _ this.1, this.2⟩

theorem removeErrored_cons (p : FChannel × SendError) (rest : List (FChannel × SendError))
    (l : List FChannel) :
    removeErrored (p :: rest) l
      = removeErrored rest (if removableReason p.2 then l.erase p.1 else l) := rfl

theorem mem_of_mem_removeErrored :
    ∀ (e : List (FChannel × SendError)) (l : List FChannel) (x : FChannel),
      x ∈ removeErrored e l → x ∈ l := by
  intro e
  induction e with
  | nil => intro l x h; exact h
  | cons p rest ih =>
    intro l x h
    rw [removeErrored_cons] at h
    by_cases hp : removableReason p.2
    · rw [if_pos hp] at h
      exact List.mem_of_mem_erase (ih _ _ h)
    · rw [if_neg hp] at h
      exact ih _ _ h

theorem not_mem_removeErrored_of_not_mem
    (e : List (FChannel × SendError)) (l : List FChannel) (x : FChannel)
    (h : x ∉ l) : x ∉ removeErrored e l :=
  fun hmem => h (mem_of_mem_removeErrored e l x hmem)

theorem not_mem_removeErrored :
    ∀ (e : List (FChannel × SendError)) (l : List FChannel) (x : FChannel) (r : SendError),
      l.Nodup → (x, r) ∈ e → removableReason r = true →
      x ∉ removeErrored e l := by
  intro e
  induction e with
  | nil => intro l x r _ hx; cases hx
  | cons p rest ih =>
    intro l x r hnd hx hr
    rw [removeErrored_cons]
    rcases List.mem_cons.mp hx with h | h
    · subst h
      simp only [hr, if_pos]
      have hout : x ∉ l.erase x := fun hmem => by
        rcases (hnd.mem_erase_iff.mp hmem) with ⟨hne, _⟩
        exact hne rfl
      exact not_mem_removeErrored_of_not_mem rest _ x hout
    · by_cases hp : removableReason p.2
      · rw [if_pos hp]
        exact ih _ x r (hnd.erase p.1) h hr
      · rw [if_neg hp]
        exact ih _ x r hnd h hr

theorem mem_removeErrored_of_no_removable :
    ∀ (e : List (FChannel × SendError)) (l : List FChannel) (x : FChannel),
      x ∈ l → (∀ p ∈ e, p.1 = x → removableReason p.2 = false) →
      x ∈ removeErrored e l := by
  intro e
  induction e with
  | nil => intro l x h _; exact h
  | cons p rest ih =>
    intro l x hx hno
    rw [removeErrored_cons]
    by_cases hp : removableReason p.2
    · rw [if_pos hp]
      have hne : p.1 ≠ x := fun he => by
        have := hno p (List.mem_cons_self _ _) he
        rw [this] at hp; cases hp
      refine ih _ x ?_ (fun q hq hqx => hno q (List.mem_cons_of_mem _ hq) hqx)
      exact (List.mem_erase_of_ne (fun he => hne he.symm)).mpr hx
    · rw [if_neg hp]
      exact ih _ x hx (fun q hq hqx => hno q (List.mem_cons_of_mem _ hq) hqx)

/-!  ## Claims C3 and C4 -/

/-- **C3.** For every channel whose delivery attempt inside `send()` fails
with a not-found error (`NotFound(404, 10003)`: the channel no longer
exists) or a permission-denied error (`discord.Forbidden`, HTTP 403), that
channel is removed from the Message's target channel set before `send()`
returns; channels failing with other, transient errors
(`HTTPException(500, 0)` or `FileExistsError`) remain in the set.
The `Nodup` hypothesis is the constructor invariant
`self.channels = list(set(channels))`. -/
theorem claim3_channel_removal (m : VoiceMESSAGE) (env : FChannel → ChanEnv)
    (ch : FChannel) (audio : FAudio)
    (hnd : m.channels.Nodup)
    (hm : m.update_mutex_locked = false)
    (hd : get_data m.data = Option.some audio)
    (hch : ch ∈ m.channels) :
    (((∃ c, send_channel (env ch) = SendResult.failure (SendError.forbidden 403 c)) ∨
       send_channel (env ch) = SendResult.failure (SendError.notFound 404 10003)) →
      ch ∉ (m.send env).2.1.channels) ∧
    ((send_channel (env ch) = SendResult.failure (SendError.httpException 500 0) ∨
       send_channel (env ch) = SendResult.failure SendError.fileExists ∨
       send_channel (env ch) = SendResult.success) →
      ch ∈ (m.send env).2.1.channels) := by
  have hsend : (m.send env).2.1.channels
      = removeErrored (sendLoop env m.channels).2 m.channels := by
    unfold VoiceMESSAGE.send
    rw [hm, hd]
    rfl
  constructor
  · intro hfail
    rw [hsend]
    rcases hfail with ⟨c, hc⟩ | hc
    · exact not_mem_removeErrored _ _ ch _ hnd
        (sendLoop_mem_errored env m.channels ch _ hch hc) rfl
    · exact not_mem_removeErrored _ _ ch _ hnd
        (sendLoop_mem_errored env m.channels ch _ hch hc) rfl
  · intro hok
    rw [hsend]
    refine mem_removeErrored_of_no_removable _ _ ch hch ?_
    rintro ⟨p1, p2⟩ hp hpx
    dsimp only at hpx ⊢
    subst hpx
    have h2 := (sendLoop_errored_mem env m.channels _ p2 hp).2
    rcases hok with hc | hc | hc <;> rw [hc] at h2
    · injection h2 with h3
      rw [← h3]
      rfl
    · injection h2 with h3
      rw [← h3]
      rfl
    · cases h2

/-- Concrete fixture for the C3 witness: two channels, the first failing
with a not-found classification, the second with a transient error. -/
def c3msg : VoiceMESSAGE :=
  ⟨ResolvedData.single (DataItem.audio ⟨"ad.mp3"⟩), 50,
   [⟨1, "dead"⟩, ⟨2, "alive"⟩], ⟨Option.none, 5, 0⟩, false⟩

def c3env : FChannel → ChanEnv := fun c =>
  if c.id == 1 then ⟨Option.some RawExc.otherExc, false⟩
  else ⟨Option.some RawExc.otherExc, true⟩

theorem claim3_channel_removal_witness :
    (⟨1, "dead"⟩ : FChannel) ∉ (c3msg.send c3env).2.1.channels ∧
    (⟨2, "alive"⟩ : FChannel) ∈ (c3msg.send c3env).2.1.channels :=
  ⟨(claim3_channel_removal c3msg c3env ⟨1, "dead"⟩ ⟨"ad.mp3"⟩ (by decide) rfl rfl
      (by decide)).1 (Or.inr (by decide)),
   (claim3_channel_removal c3msg c3env ⟨2, "alive"⟩ ⟨"ad.mp3"⟩ (by decide) rfl rfl
      (by decide)).2 (Or.inl (by decide))⟩

/-- **C4.** For every Message and every per-channel delivery failure,
`send()` catches the error and records it as a structured per-channel
outcome in the returned log context: no per-channel error escapes `send()`
as a raised exception (the embedded `send_channel` is total and `send`
returns a structured log context), and a failure on one channel never
prevents the delivery attempt to the remaining channels — the attempt trace
equals the full channel list, and the successful/failed outcome lists
together account for every channel. -/
theorem claim4_errors_recorded (m : VoiceMESSAGE) (env : FChannel → ChanEnv)
    (audio : FAudio)
    (hm : m.update_mutex_locked = false)
    (hd : get_data m.data = Option.some audio) :
    ∃ ctx m', m.send env = (Option.some ctx, m', m.channels) ∧
      ctx.successful.length + ctx.failed.length = m.channels.length ∧
      (∀ ch ∈ m.channels, ∀ r, send_channel (env ch) = SendResult.failure r →
        (⟨ch.name, ch.id, r⟩ : ChannelLogEntry) ∈ ctx.failed) := by
  refine ⟨generate_log_context audio (sendLoop env m.channels).1 (sendLoop env m.channels).2,
          { m with channels := removeErrored (sendLoop env m.channels).2 m.channels },
          ?_, ?_, ?_⟩
  · unfold VoiceMESSAGE.send
    rw [hm, hd]
    rfl
  · unfold generate_log_context
    simp only [List.length_map]
    exact sendLoop_length env m.channels
  · intro ch hch r hr
    unfold generate_log_context
    simp only [List.mem_map]
    exact ⟨(ch, r), sendLoop_mem_errored env m.channels ch r hch hr, rfl⟩

/-- Concrete fixture for the C4 witness: first channel fails transiently,
second succeeds. -/
def c4msg : VoiceMESSAGE :=
  ⟨ResolvedData.single (DataItem.audio ⟨"ad.mp3"⟩), 50,
   [⟨1, "a"⟩, ⟨2, "b"⟩], ⟨Option.none, 5, 0⟩, false⟩

def c4env : FChannel → ChanEnv := fun c =>
  if c.id == 1 then ⟨Option.some RawExc.otherExc, true⟩ else ⟨Option.none, true⟩

theorem claim4_errors_recorded_witness :
    ∃ ctx m', c4msg.send c4env = (Option.some ctx, m', [⟨1, "a"⟩, ⟨2, "b"⟩]) ∧
      ctx.successful.length + ctx.failed.length = c4msg.channels.length ∧
      (∀ ch ∈ c4msg.channels, ∀ r, send_channel (c4env ch) = SendResult.failure r →
        (⟨ch.name, ch.id, r⟩ : ChannelLogEntry) ∈ ctx.failed) :=
  claim4_errors_recorded c4msg c4env ⟨"ad.mp3"⟩ rfl rfl

/-! ### `GUILD.advertise` (framework/guild.py:262-285)

The advertise cycle is embedded together with an event trace recording, in
order, every externally visible action: timer resets, `send()` invocations
(tagged with the timer value of the message at the moment of invocation),
per-channel delivery attempts, log writes (`self.generate_log(...)`) and the
removal warnings traced in the cleanup loop.  Messages are addressed by
their position in the `msg_list`; in the source they are distinct mutable
objects, so removal of the marked messages is modelled by dropping the
marked positions. -/

inductive GEvent where
  | timerReset (i : Nat) (t : Timer)
  | sendInvoked (i : Nat) (t : Timer)
  | channelAttempt (i : Nat) (ch : FChannel)
  | logWritten (i : Nat)
  | removalWarning (i : Nat)
deriving DecidableEq, Repr

def GEvent.idx : GEvent → Nat
  | .timerReset i _ => i
  | .sendInvoked i _ => i
  | .channelAttempt i _ => i
  | .logWritten i => i
  | .removalWarning i => i

def isRemovalWarning : GEvent → Bool
  | .removalWarning _ => true
  | _ => false

/-- The body of the `for message in msg_list` loop
(framework/guild.py:271-279): if the message is ready, reset its timer,
call `send()`, mark it for deletion when its channel list became empty, and
write a log when logging is enabled and `send()` returned a context.
Returns (new message state, marked-for-deletion flag, emitted events). -/
def processMessage (now sample : Nat) (genLog : Bool) (env : FChannel → ChanEnv)
    (i : Nat) (m : VoiceMESSAGE) : VoiceMESSAGE × Bool × List GEvent :=
  if m.timer.is_ready now then
    let m1 := { m with timer := m.timer.reset now sample }
    let res := m1.send env
    let logEv := if genLog && res.1.isSome then [GEvent.logWritten i] else []
    (res.2.1, res.2.1.channels.isEmpty,
     GEvent.timerReset i m1.timer :: GEvent.sendInvoked i m1.timer ::
       (res.2.2.map (GEvent.channelAttempt i) ++ logEv))
  else (m, false, [])

/-- The whole message loop, starting at position `i`.  Produces the list of
(position, new state, marked) triples and the concatenated events. -/
def processAll (now : Nat) (genLog : Bool) (env : Nat → FChannel → ChanEnv)
    (sampleF : Nat → Nat) :
    Nat → List VoiceMESSAGE → List (Nat × VoiceMESSAGE × Bool) × List GEvent
  | _, [] => ([], [])
  | i, m :: rest =>
    ((i, (processMessage now (sampleF i) genLog (env i) i m).1,
         (processMessage now (sampleF i) genLog (env i) i m).2.1)
       :: (processAll now genLog env sampleF (i+1) rest).1,
     (processMessage now (sampleF i) genLog (env i) i m).2.2
       ++ (processAll now genLog env sampleF (i+1) rest).2)

/-- `GUILD.advertise` (framework/guild.py:262-285): run the message loop,
then remove every message marked for deletion from the list, tracing one
warning per removed message. -/
def GUILD.advertise (now : Nat) (genLog : Bool) (env : Nat → FChannel → ChanEnv)
    (sampleF : Nat → Nat) (msgs : List VoiceMESSAGE) :
    List VoiceMESSAGE × List GEvent :=
  ((((processAll now genLog env sampleF 0 msgs).1.filter
        (fun e => !e.2.2)).map (fun e => e.2.1)),
   (processAll now genLog env sampleF 0 msgs).2
     ++ ((processAll now genLog env sampleF 0 msgs).1.filter
          (fun e => e.2.2)).map (fun e => GEvent.removalWarning e.1))

/-! ### General list helpers (positions in concatenated traces) -/

theorem get_q_append_left {α : Type} (l₁ l₂ : List α) (n : Nat) (a : α)
    (h : l₁.get? n = Option.some a) : (l₁ ++ l₂).get? n = Option.some a := by
  induction l₁ generalizing n with
  | nil => cases h
  | cons x rest ih =>
    cases n with
    | zero => exact h
    | succ k => exact ih k h

theorem get_q_append_right {α : Type} (l₁ l₂ : List α) (n : Nat) :
    (l₁ ++ l₂).get? (l₁.length + n) = l₂.get? n := by
  induction l₁ with
  | nil => simp
  | cons x rest ih =>
    have harith : (x :: rest).length + n = (rest.length + n) + 1 := by
      simp only [List.length_cons]
      omega
    rw [harith]
    exact ih

theorem get_q_eq_some_get {α : Type} (l : List α) (n : Nat) (a : α)
    (h : l.get? n = Option.some a) : ∃ hn : n < l.length, l.get ⟨n, hn⟩ = a := by
  induction l generalizing n with
  | nil => cases h
  | cons x rest ih =>
    cases n with
    | zero =>
      injection h with h'
      exact ⟨Nat.succ_pos _, h'⟩
    | succ k =>
      rcases ih k h with ⟨hk, hg⟩
      exact ⟨Nat.succ_lt_succ hk, hg⟩

/-! ### Lemmas about the advertise trace -/

theorem processMessage_event_idx (now sample : Nat) (genLog : Bool)
    (env : FChannel → ChanEnv) (i : Nat) (m : VoiceMESSAGE) :
    ∀ ev ∈ (processMessage now sample genLog env i m).2.2, ev.idx = i := by
  intro ev hev
  unfold processMessage at hev
  by_cases hr : m.timer.is_ready now
  · rw [if_pos hr] at hev
    simp only [List.mem_cons, List.mem_append, List.mem_map] at hev
    rcases hev with h | h | h
    · rw [h]; rfl
    · rw [h]; rfl
    rcases h with ⟨ch, _, h⟩ | h
    · rw [← h]; rfl
    · by_cases hg : (genLog && ((({ m with timer := m.timer.reset now sample } : VoiceMESSAGE).send env).1.isSome : Bool)) = true
      · rw [if_pos hg] at h
        simp only [List.mem_singleton] at h
        rw [h]; rfl
      · rw [if_neg hg] at h
        cases h
  · rw [if_neg hr] at hev
    cases hev

theorem processMessage_no_warning (now sample : Nat) (genLog : Bool)
    (env : FChannel → ChanEnv) (i : Nat) (m : VoiceMESSAGE) :
    ∀ ev ∈ (processMessage now sample genLog env i m).2.2,
      isRemovalWarning ev = false := by
  intro ev hev
  unfold processMessage at hev
  by_cases hr : m.timer.is_ready now
  · rw [if_pos hr] at hev
    simp only [List.mem_cons, List.mem_append, List.mem_map] at hev
    rcases hev with h | h | h
    · rw [h]; rfl
    · rw [h]; rfl
    rcases h with ⟨ch, _, h⟩ | h
    · rw [← h]; rfl
    · by_cases hg : (genLog && ((({ m with timer := m.timer.reset now sample } : VoiceMESSAGE).send env).1.isSome : Bool)) = true
      · rw [if_pos hg] at h
        simp only [List.mem_singleton] at h
        rw [h]; rfl
      · rw [if_neg hg] at h
        cases h
  · rw [if_neg hr] at hev
    cases hev

theorem processAll_mem_chunk (now : Nat) (genLog : Bool)
    (env : Nat → FChannel → ChanEnv) (sampleF : Nat → Nat) :
    ∀ (l : List VoiceMESSAGE) (i0 : Nat) (ev : GEvent),
      ev ∈ (processAll now genLog env sampleF i0 l).2 →
      ∃ p, ∃ hp : p < l.length,
        ev ∈ (processMessage now (sampleF (i0 + p)) genLog (env (i0 + p))
               (i0 + p) (l.get ⟨p, hp⟩)).2.2 := by
  intro l
  induction l with
  | nil => intro i0 ev h; cases h
  | cons m rest ih =>
    intro i0 ev h
    unfold processAll at h
    rcases List.mem_append.mp h with h | h
    · exact ⟨0, by simp, by simpa using h⟩
    · rcases ih (i0 + 1) ev h with ⟨p, hp, hmem⟩
      refine ⟨p + 1, by simpa using Nat.succ_lt_succ hp, ?_⟩
      have harith : i0 + 1 + p = i0 + (p + 1) := by omega
      rw [← harith]
      simpa using hmem

theorem processAll_cons (now : Nat) (genLog : Bool) (env : Nat → FChannel → ChanEnv)
    (sampleF : Nat → Nat) (i0 : Nat) (m : VoiceMESSAGE) (rest : List VoiceMESSAGE) :
    processAll now genLog env sampleF i0 (m :: rest)
      = ((i0, (processMessage now (sampleF i0) genLog (env i0) i0 m).1,
              (processMessage now (sampleF i0) genLog (env i0) i0 m).2.1)
           :: (processAll now genLog env sampleF (i0 + 1) rest).1,
         (processMessage now (sampleF i0) genLog (env i0) i0 m).2.2
           ++ (processAll now genLog env sampleF (i0 + 1) rest).2) := rfl

/-- In the trace produced by the message loop, a ready message at position
`p` contributes a `timerReset` event immediately followed by the
`sendInvoked` event, both carrying the freshly reset timer. -/
theorem processAll_ready_pos (now : Nat) (genLog : Bool)
    (env : Nat → FChannel → ChanEnv) (sampleF : Nat → Nat) :
    ∀ (l : List VoiceMESSAGE) (i0 p : Nat) (hp : p < l.length),
      (l.get ⟨p, hp⟩).timer.is_ready now = true →
      ∃ n, (processAll now genLog env sampleF i0 l).2.get? n
            = Option.some (GEvent.timerReset (i0 + p)
                ((l.get ⟨p, hp⟩).timer.reset now (sampleF (i0 + p)))) ∧
           (processAll now genLog env sampleF i0 l).2.get? (n + 1)
            = Option.some (GEvent.sendInvoked (i0 + p)
                ((l.get ⟨p, hp⟩).timer.reset now (sampleF (i0 + p)))) := by
  intro l
  induction l with
  | nil => intro i0 p hp; exact absurd hp (Nat.not_lt_zero p)
  | cons m rest ih =>
    intro i0 p hp hready
    cases p with
    | zero =>
      have hready' : m.timer.is_ready now = true := hready
      refine ⟨0, ?_, ?_⟩
      · apply get_q_append_left
        unfold processMessage
        rw [if_pos hready']
        rfl
      · apply get_q_append_left
        unfold processMessage
        rw [if_pos hready']
        rfl
    | succ q =>
      have hq : q < rest.length := Nat.lt_of_succ_lt_succ hp
      have hready' : (rest.get ⟨q, hq⟩).timer.is_ready now = true := hready
      rcases ih (i0 + 1) q hq hready' with ⟨n, h1, h2⟩
      have harith : i0 + 1 + q = i0 + (q + 1) := by omega
      rw [harith] at h1 h2
      refine ⟨(processMessage now (sampleF i0) genLog (env i0) i0 m).2.2.length + n, ?_, ?_⟩
      · have key : (processAll now genLog env sampleF i0 (m :: rest)).2.get?
            ((processMessage now (sampleF i0) genLog (env i0) i0 m).2.2.length + n)
            = (processAll now genLog env sampleF (i0 + 1) rest).2.get? n :=
          get_q_append_right _ _ n
        rw [key]
        exact h1
      · have harith2 : (processMessage now (sampleF i0) genLog (env i0) i0 m).2.2.length + n + 1
            = (processMessage now (sampleF i0) genLog (env i0) i0 m).2.2.length + (n + 1) := by
          omega
        rw [harith2]
        have key : (processAll now genLog env sampleF i0 (m :: rest)).2.get?
            ((processMessage now (sampleF i0) genLog (env i0) i0 m).2.2.length + (n + 1))
            = (processAll now genLog env sampleF (i0 + 1) rest).2.get? (n + 1) :=
          get_q_append_right _ _ (n + 1)
        rw [key]
        exact h2

/-!  ## Claim C5 -/

/-- **C5.** In every `advertise(mode)` call, for every Message in the
selected subset whose timer is ready, the container resets that Message's
timer strictly before invoking its `send()`: in the advertise event trace
the `timerReset` event for position `i` occurs at a strictly earlier
position than the `sendInvoked` event, and the timer value at the moment
`send()` is invoked is already the reset one (`next_fire_time = now +
period`), so the next scheduled fire time is fixed before any delivery work
begins. -/
theorem claim5_reset_before_send (now : Nat) (genLog : Bool)
    (env : Nat → FChannel → ChanEnv) (sampleF : Nat → Nat)
    (msgs : List VoiceMESSAGE) (i : Nat) (hi : i < msgs.length)
    (hready : (msgs.get ⟨i, hi⟩).timer.is_ready now = true) :
    ∃ j k, j < k ∧
      (GUILD.advertise now genLog env sampleF msgs).2.get? j
        = Option.some (GEvent.timerReset i
            ((msgs.get ⟨i, hi⟩).timer.reset now (sampleF i))) ∧
      (GUILD.advertise now genLog env sampleF msgs).2.get? k
        = Option.some (GEvent.sendInvoked i
            ((msgs.get ⟨i, hi⟩).timer.reset now (sampleF i))) := by
  rcases processAll_ready_pos now genLog env sampleF msgs 0 i hi hready with ⟨n, h1, h2⟩
  rw [Nat.zero_add] at h1 h2
  exact ⟨n, n + 1, Nat.lt_succ_self n,
         get_q_append_left _ _ _ _ h1, get_q_append_left _ _ _ _ h2⟩

def c5msg : VoiceMESSAGE :=
  ⟨ResolvedData.single (DataItem.audio ⟨"ad.mp3"⟩), 50,
   [⟨1, "a"⟩], ⟨Option.none, 5, 0⟩, false⟩

theorem claim5_reset_before_send_witness :
    ∃ j k, j < k ∧
      (GUILD.advertise 10 true (fun _ _ => ⟨Option.none, true⟩) (fun _ => 0) [c5msg]).2.get? j
        = Option.some (GEvent.timerReset 0
            (([c5msg].get ⟨0, Nat.one_pos⟩).timer.reset 10 ((fun _ => 0) 0))) ∧
      (GUILD.advertise 10 true (fun _ _ => ⟨Option.none, true⟩) (fun _ => 0) [c5msg]).2.get? k
        = Option.some (GEvent.sendInvoked 0
            (([c5msg].get ⟨0, Nat.one_pos⟩).timer.reset 10 ((fun _ => 0) 0))) :=
  claim5_reset_before_send 10 true (fun _ _ => ⟨Option.none, true⟩) (fun _ => 0)
    [c5msg] 0 Nat.one_pos (by decide)

/-!  ## Claim C2 -/

/-- Shared lemma: when the resolved payload holds no audio, `send` is a
no-op returning the "not sent" sentinel, regardless of the mutex state. -/
theorem send_none_of_no_audio (m : VoiceMESSAGE) (env : FChannel → ChanEnv)
    (h : get_data m.data = Option.none) : m.send env = (Option.none, m, []) := by
  unfold VoiceMESSAGE.send
  rw [h]
  cases hl : m.update_mutex_locked
  · rfl
  · rfl

/-- **C2.** For every Message whose data provider resolves to `None` or an
empty value, `send()` returns `None` without attempting delivery to any
channel (empty attempt trace, state unchanged), and the container
consequently writes no log for that attempt: no `logWritten` event for this
message's position ever appears in the advertise trace. -/
theorem claim2_empty_data_not_sent (m : VoiceMESSAGE) (env : FChannel → ChanEnv)
    (h : m.data = ResolvedData.nothing ∨ m.data = ResolvedData.collection []) :
    m.send env = (Option.none, m, []) ∧
    ∀ (now : Nat) (genLog : Bool) (envG : Nat → FChannel → ChanEnv)
      (sampleF : Nat → Nat) (msgs : List VoiceMESSAGE) (i : Nat),
      msgs.get? i = Option.some m →
      GEvent.logWritten i ∉ (GUILD.advertise now genLog envG sampleF msgs).2 := by
  have hgd : get_data m.data = Option.none := by
    rcases h with h | h <;> rw [h] <;> rfl
  refine ⟨send_none_of_no_audio m env hgd, ?_⟩
  intro now genLog envG sampleF msgs i hm hmem
  rcases List.mem_append.mp hmem with hin | hin
  · rcases processAll_mem_chunk now genLog envG sampleF msgs 0 _ hin with ⟨p, hp, hchunk⟩
    have hidx := processMessage_event_idx now (sampleF (0 + p)) genLog (envG (0 + p))
      (0 + p) (msgs.get ⟨p, hp⟩) _ hchunk
    have hpi : p = i := by
      have h' : i = 0 + p := hidx
      omega
    subst hpi
    rcases get_q_eq_some_get msgs p m hm with ⟨hn, hg⟩
    have hg' : msgs.get ⟨p, hp⟩ = m := hg
    rw [Nat.zero_add] at hchunk
    rw [hg'] at hchunk
    unfold processMessage at hchunk
    by_cases hr : m.timer.is_ready now = true
    · rw [if_pos hr] at hchunk
      have hsend := send_none_of_no_audio
        ({ m with timer := m.timer.reset now (sampleF p) }) (envG p) hgd
      simp [hsend] at hchunk
    · rw [if_neg hr] at hchunk
      cases hchunk
  · rcases List.mem_map.mp hin with ⟨e, _, he⟩
    injection he

def c2msg : VoiceMESSAGE :=
  ⟨ResolvedData.nothing, 50, [⟨1, "a"⟩], ⟨Option.none, 5, 0⟩, false⟩

theorem claim2_empty_data_not_sent_witness :
    c2msg.send (fun _ => ⟨Option.none, true⟩) = (Option.none, c2msg, []) ∧
    GEvent.logWritten 0 ∉
      (GUILD.advertise 10 true (fun _ _ => ⟨Option.none, true⟩) (fun _ => 0) [c2msg]).2 :=
  ⟨(claim2_empty_data_not_sent c2msg (fun _ => ⟨Option.none, true⟩) (Or.inl rfl)).1,
   (claim2_empty_data_not_sent c2msg (fun _ => ⟨Option.none, true⟩) (Or.inl rfl)).2
     10 true (fun _ _ => ⟨Option.none, true⟩) (fun _ => 0) [c2msg] 0 rfl⟩

/-!  ## Claim C6 -/

theorem isEmpty_false_ne_nil {α : Type} (l : List α) (h : l.isEmpty = false) :
    l ≠ [] := by
  cases l with
  | nil => cases h
  | cons a t => exact List.cons_ne_nil a t

/-- A message that the loop body did not mark for deletion has a non-empty
channel list afterwards (given it had one before). -/
theorem processMessage_kept_channels (now sample : Nat) (genLog : Bool)
    (env : FChannel → ChanEnv) (i : Nat) (m : VoiceMESSAGE)
    (hm : m.channels ≠ [])
    (hfalse : (processMessage now sample genLog env i m).2.1 = false) :
    (processMessage now sample genLog env i m).1.channels ≠ [] := by
  unfold processMessage at hfalse ⊢
  by_cases hr : m.timer.is_ready now = true
  · rw [if_pos hr] at hfalse ⊢
    exact isEmpty_false_ne_nil _ hfalse
  · rw [if_neg hr] at hfalse ⊢
    exact hm

theorem processAll_entry_channels (now : Nat) (genLog : Bool)
    (env : Nat → FChannel → ChanEnv) (sampleF : Nat → Nat) :
    ∀ (l : List VoiceMESSAGE) (i0 : Nat), (∀ m ∈ l, m.channels ≠ []) →
      ∀ e ∈ (processAll now genLog env sampleF i0 l).1,
        e.2.2 = false → e.2.1.channels ≠ [] := by
  intro l
  induction l with
  | nil => intro i0 _ e he; cases he
  | cons m rest ih =>
    intro i0 h e he hfalse
    unfold processAll at he
    rcases List.mem_cons.mp he with he | he
    · subst he
      exact processMessage_kept_channels now (sampleF i0) genLog (env i0) i0 m
        (h m (List.mem_cons_self _ _)) hfalse
    · exact ih (i0 + 1) (fun x hx => h x (List.mem_cons_of_mem _ hx)) e he hfalse

theorem processAll_length (now : Nat) (genLog : Bool)
    (env : Nat → FChannel → ChanEnv) (sampleF : Nat → Nat) :
    ∀ (l : List VoiceMESSAGE) (i0 : Nat),
      (processAll now genLog env sampleF i0 l).1.length = l.length := by
  intro l
  induction l with
  | nil => intro i0; rfl
  | cons m rest ih =>
    intro i0
    rw [processAll_cons]
    simp only [List.length_cons]
    rw [ih (i0 + 1)]

theorem processAll_no_warning (now : Nat) (genLog : Bool)
    (env : Nat → FChannel → ChanEnv) (sampleF : Nat → Nat) :
    ∀ (l : List VoiceMESSAGE) (i0 : Nat) (ev : GEvent),
      ev ∈ (processAll now genLog env sampleF i0 l).2 →
      isRemovalWarning ev = false := by
  intro l
  induction l with
  | nil => intro i0 ev h; cases h
  | cons m rest ih =>
    intro i0 ev h
    unfold processAll at h
    rcases List.mem_append.mp h with h | h
    · exact processMessage_no_warning now (sampleF i0) genLog (env i0) i0 m ev h
    · exact ih (i0 + 1) ev h

theorem filter_of_all_false {α : Type} (p : α → Bool) :
    ∀ l : List α, (∀ a ∈ l, p a = false) → l.filter p = [] := by
  intro l
  induction l with
  | nil => intro _; rfl
  | cons x rest ih =>
    intro h
    rw [List.filter_cons, h x (List.mem_cons_self _ _)]
    exact ih (fun a ha => h a (List.mem_cons_of_mem _ ha))

theorem filter_of_all_true {α : Type} (p : α → Bool) :
    ∀ l : List α, (∀ a ∈ l, p a = true) → l.filter p = l := by
  intro l
  induction l with
  | nil => intro _; rfl
  | cons x rest ih =>
    intro h
    rw [List.filter_cons, h x (List.mem_cons_self _ _)]
    rw [ih (fun a ha => h a (List.mem_cons_of_mem _ ha))]
    rfl

theorem filter_split_len {α : Type} (p : α → Bool) :
    ∀ L : List α, (L.filter fun e => !p e).length + (L.filter p).length = L.length := by
  intro L
  induction L with
  | nil => rfl
  | cons x rest ih =>
    rw [List.filter_cons, List.filter_cons]
    cases hx : p x
    · simp [hx]
      omega
    · simp [hx]
      omega

/-- **C6.** After every `advertise(mode)` call on a Guild container returns,
every Message remaining in the container's list for that mode has a
non-empty channel set (provided the usual invariant that they entered the
cycle with non-empty channel sets, as `initialize_channels` guarantees):
each Message whose channel set became empty during the cycle has been
removed from the container, with one removal warning traced per removed
Message (the number of removal warnings in the trace equals the number of
messages dropped from the list). -/
theorem claim6_inert_removed (now : Nat) (genLog : Bool)
    (env : Nat → FChannel → ChanEnv) (sampleF : Nat → Nat)
    (msgs : List VoiceMESSAGE)
    (h : ∀ m ∈ msgs, m.channels ≠ []) :
    (∀ m' ∈ (GUILD.advertise now genLog env sampleF msgs).1, m'.channels ≠ []) ∧
    ((GUILD.advertise now genLog env sampleF msgs).2.filter isRemovalWarning).length
      = msgs.length - (GUILD.advertise now genLog env sampleF msgs).1.length := by
  constructor
  · intro m' hm'
    rcases List.mem_map.mp hm' with ⟨e, he, hem⟩
    have he' := List.mem_filter.mp he
    have hfalse : e.2.2 = false := by
      rcases he' with ⟨_, hb⟩
      cases hb2 : e.2.2
      · rfl
      · rw [hb2] at hb; cases hb
    rw [← hem]
    exact processAll_entry_channels now genLog env sampleF msgs 0 h e he'.1 hfalse
  · have htrace : (GUILD.advertise now genLog env sampleF msgs).2.filter isRemovalWarning
        = ((processAll now genLog env sampleF 0 msgs).1.filter
            (fun e => e.2.2)).map (fun e => GEvent.removalWarning e.1) := by
      show ((processAll now genLog env sampleF 0 msgs).2
          ++ ((processAll now genLog env sampleF 0 msgs).1.filter
               (fun e => e.2.2)).map (fun e => GEvent.removalWarning e.1)).filter
            isRemovalWarning = _
      rw [List.filter_append]
      rw [filter_of_all_false _ _ (fun ev hev =>
        processAll_no_warning now genLog env sampleF msgs 0 ev hev)]
      rw [filter_of_all_true _ _ ?_]
      · rfl
      · intro a ha
        rcases List.mem_map.mp ha with ⟨e, _, he⟩
        rw [← he]
        rfl
    have hout : (GUILD.advertise now genLog env sampleF msgs).1.length
        = ((processAll now genLog env sampleF 0 msgs).1.filter
            (fun e => !e.2.2)).length := List.length_map _ _
    have hsplit := filter_split_len (fun e : Nat × VoiceMESSAGE × Bool => e.2.2)
      (processAll now genLog env sampleF 0 msgs).1
    have hplen := processAll_length now genLog env sampleF msgs 0
    rw [htrace, List.length_map, hout]
    omega

def c6ready : VoiceMESSAGE :=
  ⟨ResolvedData.single (DataItem.audio ⟨"ad.mp3"⟩), 50,
   [⟨1, "dead"⟩], ⟨Option.none, 5, 0⟩, false⟩

def c6later : VoiceMESSAGE :=
  ⟨ResolvedData.single (DataItem.audio ⟨"ad.mp3"⟩), 50,
   [⟨2, "alive"⟩], ⟨Option.none, 5, 100⟩, false⟩

theorem claim6_inert_removed_witness :
    (∀ m' ∈ (GUILD.advertise 10 true (fun _ _ => ⟨Option.some RawExc.otherExc, false⟩)
        (fun _ => 0) [c6ready, c6later]).1, m'.channels ≠ []) ∧
    ((GUILD.advertise 10 true (fun _ _ => ⟨Option.some RawExc.otherExc, false⟩)
        (fun _ => 0) [c6ready, c6later]).2.filter isRemovalWarning).length
      = [c6ready, c6later].length
        - (GUILD.advertise 10 true (fun _ _ => ⟨Option.some RawExc.otherExc, false⟩)
            (fun _ => 0) [c6ready, c6later]).1.length :=
  claim6_inert_removed 10 true (fun _ _ => ⟨Option.some RawExc.otherExc, false⟩)
    (fun _ => 0) [c6ready, c6later] (by decide)

/-! ### `USER.advertise` (framework/guild.py:360-377) -/

inductive UEvent where
  | timerReset (i : Nat)
  | dmSend (i : Nat) (dmChannelAfter : Option Nat)
  | logWritten (i : Nat)
  | clearWarning
deriving DecidableEq, Repr

/-- Modelled from the spec: the state of a `DirectMESSAGE` (`src/` lacks
`framework/message/direct.py`): a timer and the `dm_channel` handle, which
is `None` when no direct-message channel to the recipient could be
established. -/
structure DMessage where
  timer : Timer
  dm_channel : Option Nat
deriving DecidableEq, Repr

/-- Modelled from the spec: the observable effect of one
`DirectMESSAGE.send()` call — the returned log context (abstracted to
`Option Unit`) and the `dm_channel` value after the attempt (§4.3: dispatch
to the user can be "permanently rejected (no DM channel establishable)"). -/
structure DMSendEffect where
  ret : Option Unit
  dmAfter : Option Nat
deriving DecidableEq, Repr

/-- `USER.advertise("text")` (framework/guild.py:366-377), processing the
message list from position `i` with the already-processed kept messages in
`acc`: for each ready message, reset the timer, `send()`, optionally write
a log, and — when `message.dm_channel is None` after the send — clear the
*whole* message list (`self.t_messages.clear()` also discards `acc`), trace
a warning and `break`.  Returns the final message list and the event
trace. -/
def USER.advertiseLoop (now : Nat) (genLog : Bool) (env : Nat → DMSendEffect)
    (sampleF : Nat → Nat) :
    Nat → List DMessage → List DMessage → List DMessage × List UEvent
  | _, acc, [] => (acc.reverse, [])
  | i, acc, m :: rest =>
    if m.timer.is_ready now then
      match (env i).dmAfter with
      | Option.none =>
        ([], (UEvent.timerReset i :: UEvent.dmSend i Option.none ::
              (if genLog && (env i).ret.isSome then [UEvent.logWritten i] else []))
             ++ [UEvent.clearWarning])
      | Option.some d =>
        ((USER.advertiseLoop now genLog env sampleF (i + 1)
            ({ m with timer := m.timer.reset now (sampleF i),
                      dm_channel := Option.some d } :: acc) rest).1,
         (UEvent.timerReset i :: UEvent.dmSend i (Option.some d) ::
           (if genLog && (env i).ret.isSome then [UEvent.logWritten i] else []))
           ++ (USER.advertiseLoop now genLog env sampleF (i + 1)
                ({ m with timer := m.timer.reset now (sampleF i),
                          dm_channel := Option.some d } :: acc) rest).2)
    else
      USER.advertiseLoop now genLog env sampleF (i + 1) (m :: acc) rest

def USER.advertise (now : Nat) (genLog : Bool) (env : Nat → DMSendEffect)
    (sampleF : Nat → Nat) (msgs : List DMessage) : List DMessage × List UEvent :=
  USER.advertiseLoop now genLog env sampleF 0 [] msgs

/-- Every `dmSend` event emitted by the loop started at position `i0` has
index at least `i0`. -/
theorem advertiseLoop_dmSend_ge (now : Nat) (genLog : Bool)
    (env : Nat → DMSendEffect) (sampleF : Nat → Nat) :
    ∀ (l acc : List DMessage) (i0 j : Nat) (d : Option Nat),
      UEvent.dmSend j d ∈ (USER.advertiseLoop now genLog env sampleF i0 acc l).2 →
      i0 ≤ j := by
  intro l
  induction l with
  | nil => intro acc i0 j d h; cases h
  | cons m rest ih =>
    intro acc i0 j d h
    unfold USER.advertiseLoop at h
    by_cases hr : m.timer.is_ready now = true
    · rw [if_pos hr] at h
      cases hd : (env i0).dmAfter with
      | none =>
        rw [hd] at h
        by_cases hg : (genLog && (env i0).ret.isSome) = true
        · rw [if_pos hg] at h
          simp at h
          obtain ⟨h1, h2⟩ := h
          omega
        · rw [if_neg hg] at h
          simp at h
          obtain ⟨h1, h2⟩ := h
          omega
      | some d0 =>
        rw [hd] at h
        rcases List.mem_append.mp h with h | h
        · by_cases hg : (genLog && (env i0).ret.isSome) = true
          · rw [if_pos hg] at h
            simp at h
            obtain ⟨h1, h2⟩ := h
            omega
          · rw [if_neg hg] at h
            simp at h
            obtain ⟨h1, h2⟩ := h
            omega
        · have := ih _ (i0 + 1) j d h
          omega
    · rw [if_neg hr] at h
      have := ih _ (i0 + 1) j d h
      omega

/-- Core of claim C7, by induction over the message list. -/
theorem advertiseLoop_dm_fail (now : Nat) (genLog : Bool)
    (env : Nat → DMSendEffect) (sampleF : Nat → Nat) (i : Nat) :
    ∀ (l acc : List DMessage) (i0 : Nat),
      UEvent.dmSend i Option.none ∈ (USER.advertiseLoop now genLog env sampleF i0 acc l).2 →
      (USER.advertiseLoop now genLog env sampleF i0 acc l).1 = [] ∧
      ∀ (j : Nat) (d : Option Nat),
        UEvent.dmSend j d ∈ (USER.advertiseLoop now genLog env sampleF i0 acc l).2 →
        j ≤ i := by
  intro l
  induction l with
  | nil => intro acc i0 h; cases h
  | cons m rest ih =>
    intro acc i0 h
    by_cases hr : m.timer.is_ready now = true
    · cases hd : (env i0).dmAfter with
      | none =>
        have hi : i = i0 := by
          unfold USER.advertiseLoop at h
          rw [if_pos hr, hd] at h
          by_cases hg : (genLog && (env i0).ret.isSome) = true
          · rw [if_pos hg] at h
            simp at h
            exact h
          · rw [if_neg hg] at h
            simp at h
            exact h
        constructor
        · unfold USER.advertiseLoop
          rw [if_pos hr, hd]
        · intro j d hjd
          unfold USER.advertiseLoop at hjd
          rw [if_pos hr, hd] at hjd
          by_cases hg : (genLog && (env i0).ret.isSome) = true
          · rw [if_pos hg] at hjd
            simp at hjd
            obtain ⟨h1, _⟩ := hjd
            omega
          · rw [if_neg hg] at hjd
            simp at hjd
            obtain ⟨h1, _⟩ := hjd
            omega
      | some d0 =>
        have hrec : UEvent.dmSend i Option.none ∈
            (USER.advertiseLoop now genLog env sampleF (i0 + 1)
              ({ m with timer := m.timer.reset now (sampleF i0),
                        dm_channel := Option.some d0 } :: acc) rest).2 := by
          unfold USER.advertiseLoop at h
          rw [if_pos hr, hd] at h
          rcases List.mem_append.mp h with h | h
          · by_cases hg : (genLog && (env i0).ret.isSome) = true
            · rw [if_pos hg] at h
              simp at h
            · rw [if_neg hg] at h
              simp at h
          · exact h
        have hbound := advertiseLoop_dmSend_ge now genLog env sampleF rest _ (i0 + 1) i
          Option.none hrec
        rcases ih _ (i0 + 1) hrec with ⟨hnil, hb⟩
        constructor
        · unfold USER.advertiseLoop
          rw [if_pos hr, hd]
          exact hnil
        · intro j d hjd
          unfold USER.advertiseLoop at hjd
          rw [if_pos hr, hd] at hjd
          rcases List.mem_append.mp hjd with hjd | hjd
          · by_cases hg : (genLog && (env i0).ret.isSome) = true
            · rw [if_pos hg] at hjd
              simp at hjd
              obtain ⟨h1, _⟩ := hjd
              omega
            · rw [if_neg hg] at hjd
              simp at hjd
              obtain ⟨h1, _⟩ := hjd
              omega
          · exact hb j d hjd
    · have h' : UEvent.dmSend i Option.none ∈
          (USER.advertiseLoop now genLog env sampleF (i0 + 1) (m :: acc) rest).2 := by
        unfold USER.advertiseLoop at h
        rw [if_neg hr] at h
        exact h
      rcases ih _ (i0 + 1) h' with ⟨hnil, hb⟩
      constructor
      · unfold USER.advertiseLoop
        rw [if_neg hr]
        exact hnil
      · intro j d hjd
        unfold USER.advertiseLoop at hjd
        rw [if_neg hr] at hjd
        exact hb j d hjd

/-!  ## Claim C7 -/

/-- **C7.** For every USER (DM) container, if after a `send()` attempt the
direct-message channel to the recipient is not establishable
(`dm_channel is None`), `advertise("text")` removes every Message from the
container in that same cycle (the resulting message list is empty, the
already-processed prefix included, via `t_messages.clear()`) and stops
processing further messages (no send is attempted at any later
position). -/
theorem claim7_dm_fail_clears_all (now : Nat) (genLog : Bool)
    (env : Nat → DMSendEffect) (sampleF : Nat → Nat) (msgs : List DMessage)
    (i : Nat)
    (h : UEvent.dmSend i Option.none ∈ (USER.advertise now genLog env sampleF msgs).2) :
    (USER.advertise now genLog env sampleF msgs).1 = [] ∧
    ∀ (j : Nat) (d : Option Nat),
      UEvent.dmSend j d ∈ (USER.advertise now genLog env sampleF msgs).2 → j ≤ i :=
  advertiseLoop_dm_fail now genLog env sampleF i msgs [] 0 h

def c7msgA : DMessage := ⟨⟨Option.none, 5, 0⟩, Option.some 7⟩

def c7msgB : DMessage := ⟨⟨Option.none, 5, 0⟩, Option.some 7⟩

def c7env : Nat → DMSendEffect := fun _ => ⟨Option.some (), Option.none⟩

theorem claim7_dm_fail_clears_all_witness :
    (USER.advertise 10 true c7env (fun _ => 0) [c7msgA, c7msgB]).1 = [] ∧
    ∀ (j : Nat) (d : Option Nat),
      UEvent.dmSend j d ∈ (USER.advertise 10 true c7env (fun _ => 0) [c7msgA, c7msgB]).2 →
      j ≤ 0 :=
  claim7_dm_fail_clears_all 10 true c7env (fun _ => 0) [c7msgA, c7msgB] 0 (by decide)

/-! ### `VoiceMESSAGE._handle_error` (daf/message/voice_based.py:225-268)

Times are epoch seconds; `member.communication_disabled_until` is the
timeout expiry instant and `+ timedelta(minutes=1)` is `+ 60`. -/

/-- The per-channel error action enumeration.  The source file uses
`REMOVE_ACCOUNT` and `SKIP_CHANNELS`; the remaining members are modelled
from the spec (§3: `{NONE, SKIP_CHANNELS, REMOVE_CHANNEL, REMOVE_ACCOUNT}`),
as `ChannelErrorAction`'s defining module is not in `src/`. -/
inductive ChannelErrorAction where
  | REMOVE_ACCOUNT
  | SKIP_CHANNELS
  | REMOVE_CHANNEL
  | NONE
deriving DecidableEq, Repr

/-- Exceptions distinguished by `_handle_error`: an HTTP error (with
mutable status/code, cf. `ex.status = 429; ex.code = 0`) or any other
exception. -/
inductive DafExc where
  | httpExc (status code : Int)
  | otherExc
deriving DecidableEq, Repr

/-- `isinstance(ex, discord.HTTPException) and ex.status == 401`. -/
def DafExc.isStatus401 : DafExc → Bool
  | .httpExc s _ => s == 401
  | .otherExc => false

/-- The member entry of the channel's guild for the client user:
`member.timed_out` and `member.communication_disabled_until`. -/
structure DafMember where
  timed_out : Bool
  communication_disabled_until : Nat
deriving DecidableEq, Repr

/-- The observable outcome of `_handle_error`: the returned
`(handled, action)` pair, the message's `next_send_time` after the call,
and the (possibly mutated) exception object. -/
structure HandleErrorOut where
  handled : Bool
  action : Option ChannelErrorAction
  next_send_time : Nat
  exOut : DafExc
deriving DecidableEq, Repr

/-- `VoiceMESSAGE._handle_error` (daf/message/voice_based.py:242-268):
a 401 HTTP error maps to `REMOVE_ACCOUNT`; otherwise, if the member exists
and is timed out, `next_send_time` is set to one minute after the timeout
expiry, an HTTP exception is mutated to status 429 / code 0 ("Prevent
channel removal by the cleanup process") and the action is
`SKIP_CHANNELS`; otherwise nothing happens.  `handled` is never set. -/
def _handle_error (member : Option DafMember) (ex : DafExc)
    (next_send_time : Nat) : HandleErrorOut :=
  if ex.isStatus401 then
    ⟨false, Option.some ChannelErrorAction.REMOVE_ACCOUNT, next_send_time, ex⟩
  else
    match member with
    | Option.some mem =>
      if mem.timed_out then
        { handled := false
          action := Option.some ChannelErrorAction.SKIP_CHANNELS
          next_send_time := mem.communication_disabled_until + 60
          exOut := match ex with
                   | DafExc.httpExc _ _ => DafExc.httpExc 429 0
                   | e => e }
      else ⟨false, Option.none, next_send_time, ex⟩
    | Option.none => ⟨false, Option.none, next_send_time, ex⟩

/-- Modelled from the spec: the channel-cleanup classification applied by
the message layer after a send failure (the `BaseChannelMessage` cleanup
loop is not in `src/`): §4.2's table removes a channel on not-found
(HTTP 404 / code 10003) or permission-denied (HTTP 403 / code 50013)
errors; the comment in `_handle_error` ("Prevent channel removal by the
cleanup process") confirms the cleanup keys on the status/code pair. -/
def cleanupRemovesChannel : DafExc → Bool
  | DafExc.httpExc s c => s == 403 || s == 404 || c == 10003 || c == 50013
  | DafExc.otherExc => false

/-!  ## Claim C8 -/

/-- **C8 counterexample.** The claim as stated is false: when the failure
is an account-invalidation error (HTTP 401) and the member is
simultaneously under a moderation timeout, the 401 branch takes priority —
the action is `REMOVE_ACCOUNT`, not `SKIP_CHANNELS`, and the timer is not
rescheduled (`next_send_time` keeps its old value 5). -/
theorem claim8_counterexample :
    (⟨true, 1000⟩ : DafMember).timed_out = true ∧
    (_handle_error (Option.some ⟨true, 1000⟩) (DafExc.httpExc 401 0) 5).action
      = Option.some ChannelErrorAction.REMOVE_ACCOUNT ∧
    ¬ (_handle_error (Option.some ⟨true, 1000⟩) (DafExc.httpExc 401 0) 5).action
      = Option.some ChannelErrorAction.SKIP_CHANNELS ∧
    (_handle_error (Option.some ⟨true, 1000⟩) (DafExc.httpExc 401 0) 5).next_send_time
      = 5 := by decide

/-- **C8 (amended).** For every per-channel send failure whose error is
*not* an account-invalidation (HTTP 401) and that occurs while the sending
member is under a moderation timeout in the channel's guild, the Message's
timer is rescheduled to fire just after the timeout expiry (one minute
after `communication_disabled_until`), the channel is not removed from the
target set (the returned exception no longer matches the cleanup's removal
classification), and the remaining channels are skipped for that cycle
(action `SKIP_CHANNELS`). -/
theorem claim8_timeout_reschedules (mem : DafMember) (ex : DafExc) (cur : Nat)
    (ht : mem.timed_out = true) (h401 : ex.isStatus401 = false) :
    (_handle_error (Option.some mem) ex cur).action
      = Option.some ChannelErrorAction.SKIP_CHANNELS ∧
    (_handle_error (Option.some mem) ex cur).next_send_time
      = mem.communication_disabled_until + 60 ∧
    cleanupRemovesChannel (_handle_error (Option.some mem) ex cur).exOut = false := by
  cases ex with
  | httpExc s c =>
    have hs : (s == 401) = false := h401
    simp [_handle_error, DafExc.isStatus401, hs, ht, cleanupRemovesChannel]
  | otherExc =>
    simp [_handle_error, DafExc.isStatus401, ht, cleanupRemovesChannel]

theorem claim8_timeout_reschedules_witness :
    (_handle_error (Option.some ⟨true, 1000⟩) (DafExc.httpExc 500 0) 5).action
      = Option.some ChannelErrorAction.SKIP_CHANNELS ∧
    (_handle_error (Option.some ⟨true, 1000⟩) (DafExc.httpExc 500 0) 5).next_send_time
      = 1060 ∧
    cleanupRemovesChannel
      (_handle_error (Option.some ⟨true, 1000⟩) (DafExc.httpExc 500 0) 5).exOut = false :=
  claim8_timeout_reschedules ⟨true, 1000⟩ (DafExc.httpExc 500 0) 5 (by decide) (by decide)

/-! ### `_update` (daf/misc.py:39-109)

A Python object with `__slots__` is modelled as its attribute map (an
association list from attribute name to value; the value universe is
abstracted to `Int`) together with `type(obj).__slots__` — the slots
declared by the object's *concrete* class only, which is what the
restoration loop `for k in type(obj).__slots__` iterates over.  Attributes
coming from base-class `__slots__` live in the attribute map but are not in
`ownSlots` (Python does not merge inherited `__slots__` into the subclass's
tuple).  `obj.__init__` and `obj.initialize` are behaviour parameters: each
maps the relevant inputs to the attribute map after the call plus a success
flag; on failure the returned map reflects the partial mutation performed
before the exception.  The `Bool` in `_update`'s result is `true` when the
update returned normally and `false` when an exception was raised and, after
the restoration loop, re-raised to the caller. -/

structure UpdObject where
  ownSlots : List String
  attrs : List (String × Int)
deriving DecidableEq, Repr

/-- `getattr(obj, k)` over the attribute map (all slot attributes are
assumed assigned, as `copy(obj)`/`getattr` would otherwise raise). -/
def getattrD (attrs : List (String × Int)) (k : String) : Int :=
  match attrs.lookup k with
  | Option.some v => v
  | Option.none => 0

/-- `setattr(obj, k, v)`: the new binding shadows the old one. -/
def setattr (attrs : List (String × Int)) (k : String) (v : Int) :
    List (String × Int) :=
  (k, v) :: attrs

/-- The exception handler's restoration loop (daf/misc.py:104-107):
`for k in type(obj).__slots__: setattr(obj, k, getattr(current_state, k))`. -/
def restoreOwn (own : List String) (saved cur : List (String × Int)) :
    List (String × Int) :=
  own.foldl (fun acc k => setattr acc k (getattrD saved k)) cur

/-- `updated_params` (daf/misc.py:93-95): for every `__init__` argument
name, take the new keyword value when given, else the current attribute. -/
def updatedParams (o : UpdObject) (kwargs : List (String × Int))
    (initKeys : List String) : List (String × Int) :=
  initKeys.map (fun k =>
    (k, match kwargs.lookup k with
        | Option.some v => v
        | Option.none => getattrD o.attrs k))

/-- `_update` (daf/misc.py:39-109).  `current_state = copy(obj)` saves the
attribute map; an unknown keyword argument raises `TypeError` (caught by
the handler, which restores `type(obj).__slots__` from the copy and
re-raises); otherwise `obj.__init__(**updated_params)` runs and then
`obj.initialize()`, with the same restore-and-re-raise handling if either
raises. -/
def _update (o : UpdObject) (kwargs : List (String × Int)) (initKeys : List String)
    (initImpl : List (String × Int) → List (String × Int) → List (String × Int) × Bool)
    (initializeImpl : List (String × Int) → List (String × Int) × Bool) :
    UpdObject × Bool :=
  if kwargs.any (fun kv => !(initKeys.contains kv.1)) then
    ({ o with attrs := restoreOwn o.ownSlots o.attrs o.attrs }, false)
  else
    if (initImpl (updatedParams o kwargs initKeys) o.attrs).2 then
      if (initializeImpl (initImpl (updatedParams o kwargs initKeys) o.attrs).1).2 then
        ({ o with attrs := (initializeImpl (initImpl (updatedParams o kwargs initKeys) o.attrs).1).1 }, true)
      else
        ({ o with attrs := restoreOwn o.ownSlots o.attrs (initializeImpl (initImpl (updatedParams o kwargs initKeys) o.attrs).1).1 }, false)
    else
      ({ o with attrs := restoreOwn o.ownSlots o.attrs (initImpl (updatedParams o kwargs initKeys) o.attrs).1 }, false)

theorem restoreOwn_cons (a : String) (rest : List String)
    (saved cur : List (String × Int)) :
    restoreOwn (a :: rest) saved cur
      = restoreOwn rest saved (setattr cur a (getattrD saved a)) := rfl

theorem getattrD_setattr_self (attrs : List (String × Int)) (k : String) (v : Int) :
    getattrD (setattr attrs k v) k = v := by
  unfold getattrD setattr
  simp [List.lookup]

theorem getattrD_setattr_ne (attrs : List (String × Int)) (a k : String) (v : Int)
    (h : k ≠ a) : getattrD (setattr attrs a v) k = getattrD attrs k := by
  have hb : (k == a) = false := beq_eq_false_iff_ne.mpr h
  unfold getattrD setattr
  simp [List.lookup, hb]

theorem getattrD_restoreOwn_not_mem :
    ∀ (own : List String) (saved cur : List (String × Int)) (k : String),
      k ∉ own → getattrD (restoreOwn own saved cur) k = getattrD cur k := by
  intro own
  induction own with
  | nil => intro saved cur k _; rfl
  | cons a rest ih =>
    intro saved cur k hk
    rw [restoreOwn_cons]
    have hka : k ≠ a := fun he => hk (he ▸ List.mem_cons_self a rest)
    rw [ih saved _ k (fun hm => hk (List.mem_cons_of_mem _ hm))]
    exact getattrD_setattr_ne cur a k _ hka

theorem getattrD_restoreOwn_mem :
    ∀ (own : List String) (saved cur : List (String × Int)) (k : String),
      k ∈ own → getattrD (restoreOwn own saved cur) k = getattrD saved k := by
  intro own
  induction own with
  | nil => intro saved cur k hk; cases hk
  | cons a rest ih =>
    intro saved cur k hk
    rw [restoreOwn_cons]
    by_cases hkr : k ∈ rest
    · exact ih saved _ k hkr
    · have hka : k = a := by
        rcases List.mem_cons.mp hk with h | h
        · exact h
        · exact absurd h hkr
      subst hka
      rw [getattrD_restoreOwn_not_mem rest saved _ k hkr]
      exact getattrD_setattr_self cur k _

/-!  ## Claim C9 -/

/-- **C9 counterexample.** The claim as stated is false: the restoration
loop iterates over `type(obj).__slots__` only, so a slot attribute
inherited from a base class (here `"a"`, present in the attribute map but
not in the concrete class's `ownSlots = ["b"]`) is *not* restored when the
re-run `__init__` mutates it (`"a" := 99`) before raising: after the failed
update the object reports `a = 99`, not its pre-update value `1`. -/
theorem claim9_counterexample :
    ((⟨["b"], [("a", 1), ("b", 2)]⟩ : UpdObject).attrs.map Prod.fst)
      = ["a", "b"] ∧
    (_update ⟨["b"], [("a", 1), ("b", 2)]⟩ [("b", 5)] ["a", "b"]
      (fun _ cur => (setattr cur "a" 99, false)) (fun a => (a, true))).2 = false ∧
    getattrD (_update ⟨["b"], [("a", 1), ("b", 2)]⟩ [("b", 5)] ["a", "b"]
      (fun _ cur => (setattr cur "a" 99, false)) (fun a => (a, true))).1.attrs "a" = 99 ∧
    getattrD (⟨["b"], [("a", 1), ("b", 2)]⟩ : UpdObject).attrs "a" = 1 := by decide

/-- **C9 (amended).** On every failing attribute-copy-based update, the
raised error propagates to the caller (result flag `false` models the
re-raise) and every attribute named in the object's *concrete* class's
`__slots__` is restored to its pre-update value; attributes from inherited
base-class slots may retain partially-updated values.  When the failure is
an unknown keyword argument, nothing was mutated before the `TypeError`, so
*every* attribute (inherited ones included) is unchanged. -/
theorem claim9_update_restores_own_slots (o : UpdObject)
    (kwargs : List (String × Int)) (initKeys : List String)
    (initImpl : List (String × Int) → List (String × Int) → List (String × Int) × Bool)
    (initializeImpl : List (String × Int) → List (String × Int) × Bool) :
    ((_update o kwargs initKeys initImpl initializeImpl).2 = false →
      ∀ k ∈ o.ownSlots,
        getattrD (_update o kwargs initKeys initImpl initializeImpl).1.attrs k
          = getattrD o.attrs k) ∧
    ((kwargs.any (fun kv => !(initKeys.contains kv.1))) = true →
      (_update o kwargs initKeys initImpl initializeImpl).2 = false ∧
      ∀ k, getattrD (_update o kwargs initKeys initImpl initializeImpl).1.attrs k
          = getattrD o.attrs k) := by
  by_cases hbad : (kwargs.any (fun kv => !(initKeys.contains kv.1))) = true
  · have hres : _update o kwargs initKeys initImpl initializeImpl
        = ({ o with attrs := restoreOwn o.ownSlots o.attrs o.attrs }, false) := by
      unfold _update
      rw [if_pos hbad]
    constructor
    · intro _ k hk
      rw [hres]
      exact getattrD_restoreOwn_mem o.ownSlots o.attrs o.attrs k hk
    · intro _
      rw [hres]
      refine ⟨rfl, ?_⟩
      intro k
      by_cases hk : k ∈ o.ownSlots
      · exact getattrD_restoreOwn_mem o.ownSlots o.attrs o.attrs k hk
      · exact getattrD_restoreOwn_not_mem o.ownSlots o.attrs o.attrs k hk
  · constructor
    · intro hfail k hk
      unfold _update at hfail ⊢
      rw [if_neg hbad] at hfail ⊢
      by_cases h1 : (initImpl (updatedParams o kwargs initKeys) o.attrs).2 = true
      · rw [if_pos h1] at hfail ⊢
        by_cases h2 : (initializeImpl
            (initImpl (updatedParams o kwargs initKeys) o.attrs).1).2 = true
        · rw [if_pos h2] at hfail
          cases hfail
        · rw [if_neg h2] at hfail ⊢
          exact getattrD_restoreOwn_mem o.ownSlots o.attrs _ k hk
      · rw [if_neg h1] at hfail ⊢
        exact getattrD_restoreOwn_mem o.ownSlots o.attrs _ k hk
    · intro hb
      exact absurd hb hbad

def c9obj : UpdObject := ⟨["b"], [("a", 1), ("b", 2)]⟩

def c9initImpl : List (String × Int) → List (String × Int) → List (String × Int) × Bool :=
  fun _ cur => (setattr cur "a" 99, false)

def c9initializeImpl : List (String × Int) → List (String × Int) × Bool :=
  fun a => (a, true)

theorem claim9_update_restores_own_slots_witness :
    (_update c9obj [("zzz", 1)] ["a", "b"] c9initImpl c9initializeImpl).2 = false ∧
    getattrD (_update c9obj [("zzz", 1)] ["a", "b"] c9initImpl c9initializeImpl).1.attrs "b"
      = getattrD c9obj.attrs "b" :=
  ⟨((claim9_update_restores_own_slots c9obj [("zzz", 1)] ["a", "b"] c9initImpl
      c9initializeImpl).2 (by decide)).1,
   ((claim9_update_restores_own_slots c9obj [("zzz", 1)] ["a", "b"] c9initImpl
      c9initializeImpl).2 (by decide)).2 "b"⟩
